import Mathlib

/-!
Verification of the pdf2markdown cleanup pipeline (`src/main.py`,
`src/utils/token_estimator.py`, `config.py`).

Python strings are embedded as `List Char`; the LLM completion service is an
oracle mapping the request number to an outcome (`success content total_tokens`
for a normal response, `failure err` for any exception raised by the call).
All definitions are transcribed from the Python source; specification-side
descriptions used as comparison targets are marked as such in their doc
comments.
-/

set_option maxHeartbeats 1000000
set_option maxRecDepth 40000

/-- Embedding of `config.py` `CHARS_PER_TOKEN = 4`. -/
def CHARS_PER_TOKEN : Nat := 4

/-- Embedding of `main.py` `estimate_tokens_from_string`: `len(text) // 4`
(the constant 4 is hard-coded at that call site). -/
def estimate_tokens_from_string (text : List Char) : Nat :=
  text.length / 4

/-- Embedding of the constant `MAX_CHUNK_SIZE = 6000` local to `text_tidy_up`. -/
def MAX_CHUNK_SIZE : Nat := 6000

/-- Embedding of Python `full_document.split('\x7bnewline newline\x7d')`
(that is, `split` on the two-character blank-line separator): leftmost,
non-overlapping occurrences of the separator split the string; the result is
always non-empty and splitting the empty string yields `[[]]`, exactly as in
Python. -/
def splitParagraphs : List Char → List (List Char)
  | [] => [[]]
  | [c] => [[c]]
  | c :: d :: rest =>
    if c = '\n' ∧ d = '\n' then
      [] :: splitParagraphs rest
    else
      match splitParagraphs (d :: rest) with
      | [] => [[c]]
      | p :: ps => (c :: p) :: ps

/-- Embedding of Python `sep.join(parts)` for the blank-line separator. -/
def joinParagraphs : List (List Char) → List Char
  | [] => []
  | [x] => x
  | x :: xs => x ++ '\n' :: '\n' :: joinParagraphs xs

theorem splitParagraphs_ne_nil (s : List Char) : splitParagraphs s ≠ [] := by
  induction s using splitParagraphs.induct with
  | case1 => simp [splitParagraphs]
  | case2 c => simp [splitParagraphs]
  | case3 c d rest h ih =>
    rw [splitParagraphs, if_pos h]
    simp
  | case4 c d rest h hnil ih =>
    rw [splitParagraphs, if_neg h, hnil]
    simp
  | case5 c d rest h p ps hcons ih =>
    rw [splitParagraphs, if_neg h, hcons]
    simp

theorem joinParagraphs_cons_of_ne_nil (x : List Char) (xs : List (List Char))
    (h : xs ≠ []) :
    joinParagraphs (x :: xs) = x ++ '\n' :: '\n' :: joinParagraphs xs := by
  cases xs with
  | nil => exact absurd rfl h
  | cons y ys => rfl

theorem joinParagraphs_cons_head (c : Char) (p : List Char)
    (ps : List (List Char)) :
    joinParagraphs ((c :: p) :: ps) = c :: joinParagraphs (p :: ps) := by
  cases ps with
  | nil => rfl
  | cons q qs => rfl

/-- Round trip of the paragraph split: joining the split parts with the same
separator reconstructs the string, exactly as in Python. -/
theorem joinParagraphs_splitParagraphs (s : List Char) :
    joinParagraphs (splitParagraphs s) = s := by
  induction s using splitParagraphs.induct with
  | case1 => rfl
  | case2 c => rfl
  | case3 c d rest h ih =>
    rw [splitParagraphs, if_pos h,
      joinParagraphs_cons_of_ne_nil _ _ (splitParagraphs_ne_nil rest), ih]
    obtain ⟨h1, h2⟩ := h
    rw [h1, h2]
    rfl
  | case4 c d rest h hnil ih =>
    exact absurd hnil (splitParagraphs_ne_nil _)
  | case5 c d rest h p ps hcons ih =>
    rw [splitParagraphs, if_neg h, hcons, joinParagraphs_cons_head, ← hcons, ih]

/-- A string without newline characters is a single paragraph. -/
theorem splitParagraphs_of_no_newline (s : List Char) (h : '\n' ∉ s) :
    splitParagraphs s = [s] := by
  induction s using splitParagraphs.induct with
  | case1 => rfl
  | case2 c => rfl
  | case3 c d rest hcd ih =>
    exact absurd (hcd.1 ▸ List.mem_cons_self c (d :: rest)) h
  | case4 c d rest hcd hnil ih =>
    exact absurd hnil (splitParagraphs_ne_nil _)
  | case5 c d rest hcd p ps hcons ih =>
    have hd : '\n' ∉ d :: rest := fun hm => h (List.mem_cons_of_mem c hm)
    rw [splitParagraphs, if_neg hcd, hcons]
    have : p :: ps = [d :: rest] := hcons ▸ ih hd
    rw [List.cons_eq_cons] at this
    rw [this.1, this.2]

/-- Splitting a string that starts with a separator-free prefix followed by the
separator peels off that prefix as the first paragraph. -/
theorem splitParagraphs_append (a rest : List Char) (h : '\n' ∉ a) :
    splitParagraphs (a ++ '\n' :: '\n' :: rest) = a :: splitParagraphs rest := by
  induction a with
  | nil =>
    rw [List.nil_append, splitParagraphs, if_pos ⟨rfl, rfl⟩]
  | cons c a' ih =>
    have hc : ¬(c = '\n' ∧ (a' ++ '\n' :: '\n' :: rest).headI = '\n') := by
      intro hx
      exact h (hx.1 ▸ List.mem_cons_self c a')
    have ha' : '\n' ∉ a' := fun hm => h (List.mem_cons_of_mem c hm)
    cases a' with
    | nil =>
      rw [List.cons_append, List.nil_append, splitParagraphs,
        if_neg (by intro hx; exact h (hx.1 ▸ List.mem_cons_self c [])),
        splitParagraphs, if_pos ⟨rfl, rfl⟩]
    | cons e a'' =>
      have step := ih ha'
      rw [List.cons_append, List.cons_append, splitParagraphs,
        if_neg (by intro hx; exact h (hx.1 ▸ List.mem_cons_self c (e :: a'')))]
      rw [List.cons_append] at step
      rw [step]

/-- Embedding of the chunk-building loop of `text_tidy_up` (`main.py` lines
143-163).  Arguments mirror the Python state: remaining paragraphs, the
`chunks` list built so far, `current_chunk` (a list of paragraphs) and
`current_chunk_tokens`.  The source's local variable `paragraph_tokens` is
inlined.  Note the loop body has no emptiness test on `current_chunk`; only
the final flush after the loop has one (`if current_chunk:`). -/
def buildChunksGo :
    List (List Char) → List (List Char) → List (List Char) → Nat → List (List Char)
  | [], chunks, current_chunk, _ =>
    if current_chunk.isEmpty then chunks else chunks ++ [joinParagraphs current_chunk]
  | paragraph :: rest, chunks, current_chunk, current_chunk_tokens =>
    if current_chunk_tokens + estimate_tokens_from_string paragraph > MAX_CHUNK_SIZE then
      buildChunksGo rest (chunks ++ [joinParagraphs current_chunk]) [paragraph]
        (estimate_tokens_from_string paragraph)
    else
      buildChunksGo rest chunks (current_chunk ++ [paragraph])
        (current_chunk_tokens + estimate_tokens_from_string paragraph)

/-- The chunk list `text_tidy_up` builds from its paragraph list: the loop is
entered with empty `chunks`, empty `current_chunk` and a zero token count. -/
def buildChunks (paragraphs : List (List Char)) : List (List Char) :=
  buildChunksGo paragraphs [] [] 0

/-- Analysis device: the same greedy loop, but keeping each chunk as the list
of paragraphs it packs instead of joining them into one string.
`buildChunksGo_eq_chunkGroupsGo` proves it equivalent to the source loop. -/
def chunkGroupsGo :
    List (List Char) → List (List Char) → Nat → List (List (List Char))
  | [], current_chunk, _ =>
    if current_chunk.isEmpty then [] else [current_chunk]
  | paragraph :: rest, current_chunk, current_chunk_tokens =>
    if current_chunk_tokens + estimate_tokens_from_string paragraph > MAX_CHUNK_SIZE then
      current_chunk ::
        chunkGroupsGo rest [paragraph] (estimate_tokens_from_string paragraph)
    else
      chunkGroupsGo rest (current_chunk ++ [paragraph])
        (current_chunk_tokens + estimate_tokens_from_string paragraph)

theorem buildChunksGo_eq_chunkGroupsGo (ps : List (List Char)) :
    ∀ (chunks current : List (List Char)) (tok : Nat),
    buildChunksGo ps chunks current tok
      = chunks ++ (chunkGroupsGo ps current tok).map joinParagraphs := by
  induction ps with
  | nil =>
    intro chunks current tok
    rw [buildChunksGo, chunkGroupsGo]
    by_cases h : current.isEmpty
    · rw [if_pos h, if_pos h]
      simp
    · rw [if_neg h, if_neg h]
      simp
  | cons p rest ih =>
    intro chunks current tok
    rw [buildChunksGo, chunkGroupsGo]
    by_cases h : tok + estimate_tokens_from_string p > MAX_CHUNK_SIZE
    · rw [if_pos h, if_pos h, ih]
      simp
    · rw [if_neg h, if_neg h, ih]

/-- The groups produced by the greedy loop contain exactly the remaining
paragraphs appended to the current chunk, in order: nothing is dropped,
duplicated or reordered. -/
theorem chunkGroupsGo_flatten (ps : List (List Char)) :
    ∀ (current : List (List Char)) (tok : Nat),
    (chunkGroupsGo ps current tok).flatten = current ++ ps := by
  induction ps with
  | nil =>
    intro current tok
    rw [chunkGroupsGo]
    by_cases h : current.isEmpty
    · rw [if_pos h]
      simp [List.isEmpty_iff.mp h]
    · rw [if_neg h]
      simp
  | cons p rest ih =>
    intro current tok
    rw [chunkGroupsGo]
    by_cases h : tok + estimate_tokens_from_string p > MAX_CHUNK_SIZE
    · rw [if_pos h]
      simp [ih]
    · rw [if_neg h, ih]
      simp

theorem chunkGroupsGo_ne_nil (ps : List (List Char)) :
    ∀ (current : List (List Char)) (tok : Nat), current ≠ [] →
    chunkGroupsGo ps current tok ≠ [] := by
  induction ps with
  | nil =>
    intro current tok h
    rw [chunkGroupsGo, if_neg (by simpa using h)]
    simp
  | cons p rest ih =>
    intro current tok h
    rw [chunkGroupsGo]
    by_cases hc : tok + estimate_tokens_from_string p > MAX_CHUNK_SIZE
    · rw [if_pos hc]
      simp
    · rw [if_neg hc]
      exact ih _ _ (by simp)

/-- Once the current chunk is non-empty, every group the loop will ever emit
is non-empty. -/
theorem chunkGroupsGo_all_ne_nil (ps : List (List Char)) :
    ∀ (current : List (List Char)) (tok : Nat), current ≠ [] →
    ∀ g ∈ chunkGroupsGo ps current tok, g ≠ [] := by
  induction ps with
  | nil =>
    intro current tok h g hg
    rw [chunkGroupsGo, if_neg (by simpa using h)] at hg
    rw [List.mem_singleton] at hg
    exact hg ▸ h
  | cons p rest ih =>
    intro current tok h g hg
    rw [chunkGroupsGo] at hg
    by_cases hc : tok + estimate_tokens_from_string p > MAX_CHUNK_SIZE
    · rw [if_pos hc] at hg
      rcases List.mem_cons.mp hg with hg | hg
      · exact hg ▸ h
      · exact ih _ _ (by simp) g hg
    · rw [if_neg hc] at hg
      exact ih _ _ (by simp) g hg

theorem joinParagraphs_append (a b : List (List Char)) (ha : a ≠ []) (hb : b ≠ []) :
    joinParagraphs (a ++ b) = joinParagraphs a ++ '\n' :: '\n' :: joinParagraphs b := by
  induction a with
  | nil => exact absurd rfl ha
  | cons x a' ih =>
    cases a' with
    | nil =>
      rw [List.singleton_append, joinParagraphs_cons_of_ne_nil _ _ hb]
      rfl
    | cons y a'' =>
      rw [List.cons_append,
        joinParagraphs_cons_of_ne_nil _ _ (by simp),
        joinParagraphs_cons_of_ne_nil _ _ (by simp),
        ih (by simp), List.append_assoc]
      rfl

theorem flatten_ne_nil (gs : List (List (List Char))) (hne : gs ≠ [])
    (h : ∀ g ∈ gs, g ≠ []) : gs.flatten ≠ [] := by
  cases gs with
  | nil => exact absurd rfl hne
  | cons g gs' =>
    have : g ≠ [] := h g (List.mem_cons_self _ _)
    cases g with
    | nil => exact absurd rfl this
    | cons p g' => simp

/-- Joining the per-group joins equals joining the flattened group list, as
long as no group is empty (an empty group would contribute a spurious
separator). -/
theorem joinParagraphs_map_joinParagraphs (gs : List (List (List Char)))
    (h : ∀ g ∈ gs, g ≠ []) :
    joinParagraphs (gs.map joinParagraphs) = joinParagraphs gs.flatten := by
  induction gs with
  | nil => rfl
  | cons g gs' ih =>
    cases gs' with
    | nil => simp [joinParagraphs]
    | cons g2 gs'' =>
      have hg : g ≠ [] := h g (List.mem_cons_self _ _)
      have htail : ∀ x ∈ g2 :: gs'', x ≠ [] := fun x hx => h x (List.mem_cons_of_mem _ hx)
      have hflat : (g2 :: gs'').flatten ≠ [] :=
        flatten_ne_nil _ (by simp) htail
      rw [List.map_cons, List.flatten_cons,
        joinParagraphs_cons_of_ne_nil _ _ (by simp),
        joinParagraphs_append g _ hg hflat, ih htail]

/-- Master characterization of the chunk round trip: rejoining the chunks
reconstructs the document exactly, unless the very first paragraph alone
overflows the budget, in which case the loop closes the still-empty current
chunk and the rejoined text gains one leading blank-line separator. -/
theorem joinParagraphs_buildChunks_eq (D : List Char) :
    joinParagraphs (buildChunks (splitParagraphs D))
      = if MAX_CHUNK_SIZE < estimate_tokens_from_string (splitParagraphs D).headI
        then '\n' :: '\n' :: D else D := by
  obtain ⟨q, qs, hsplit⟩ : ∃ q qs, splitParagraphs D = q :: qs := by
    cases hs : splitParagraphs D with
    | nil => exact absurd hs (splitParagraphs_ne_nil D)
    | cons q qs => exact ⟨q, qs, rfl⟩
  have hD : joinParagraphs (q :: qs) = D := by
    rw [← hsplit, joinParagraphs_splitParagraphs]
  rw [buildChunks, hsplit, List.headI, buildChunksGo]
  by_cases hq : MAX_CHUNK_SIZE < estimate_tokens_from_string q
  · rw [if_pos (by simpa using hq), if_pos hq,
      buildChunksGo_eq_chunkGroupsGo]
    have hne : chunkGroupsGo qs [q] (estimate_tokens_from_string q) ≠ [] :=
      chunkGroupsGo_ne_nil qs [q] _ (by simp)
    have hall : ∀ g ∈ chunkGroupsGo qs [q] (estimate_tokens_from_string q), g ≠ [] :=
      chunkGroupsGo_all_ne_nil qs [q] _ (by simp)
    rw [List.nil_append, List.singleton_append,
      joinParagraphs_cons_of_ne_nil _ _ (by simpa using hne),
      joinParagraphs_map_joinParagraphs _ hall, chunkGroupsGo_flatten,
      List.singleton_append, hD]
    rfl
  · rw [if_neg (by simpa using hq), if_neg hq,
      buildChunksGo_eq_chunkGroupsGo, List.nil_append, List.nil_append,
      Nat.zero_add]
    have hall : ∀ g ∈ chunkGroupsGo qs [q] (estimate_tokens_from_string q), g ≠ [] :=
      chunkGroupsGo_all_ne_nil qs [q] _ (by simp)
    rw [joinParagraphs_map_joinParagraphs _ hall, chunkGroupsGo_flatten,
      List.singleton_append, hD]

/-- The fixed text of `get_cleanup_prompt` (`prompt_templates.py`) that comes
before the interpolated `document_content` in the f-string.  The apostrophe of
the source text is spliced in as `Char.ofNat 39`. -/
def cleanupPromptHead : List Char :=
  ("\nThis document has been created by an LLM by scanning images of a PDF and forms part of a larger document.\nEnsure the formatting is coherent and the structure is correct.\nRemove any mention of \"markdown\" from the top and don").data
    ++ [Char.ofNat 39] ++ ("t add anything new.\n").data

/-- Embedding of `get_cleanup_prompt(document_content)`: the fixed instruction
text, then the document, then the trailing newline of the f-string. -/
def get_cleanup_prompt (document_content : List Char) : List Char :=
  cleanupPromptHead ++ document_content ++ ("\n").data

theorem get_cleanup_prompt_length (D : List Char) :
    (get_cleanup_prompt D).length = cleanupPromptHead.length + D.length + 1 := by
  rw [get_cleanup_prompt, List.length_append, List.length_append]
  rfl

/-- Any document of at least 24004 characters makes the cleanup prompt
estimate exceed the 6000-token budget, so `text_tidy_up` takes the chunked
path on it. -/
theorem cleanup_prompt_overflows (D : List Char) (h : 24004 ≤ D.length) :
    MAX_CHUNK_SIZE < estimate_tokens_from_string (get_cleanup_prompt D) := by
  have hlen : 24005 ≤ (get_cleanup_prompt D).length := by
    rw [get_cleanup_prompt_length]
    omega
  have hdiv : (24005 : Nat) / 4 ≤ (get_cleanup_prompt D).length / 4 :=
    Nat.div_le_div_right hlen
  have h6001 : (6001 : Nat) ≤ (get_cleanup_prompt D).length / 4 := by
    have : (24005 : Nat) / 4 = 6001 := by decide
    omega
  rw [estimate_tokens_from_string, MAX_CHUNK_SIZE]
  omega

/-- Claim C1, as stated, is false: a document that is one huge paragraph
(24004 characters, no blank line) takes the chunked path, the loop closes the
still-empty current chunk before packing the paragraph, and rejoining the two
chunks prepends a spurious blank-line separator to the document. -/
theorem c1_chunk_roundtrip_counterexample :
    MAX_CHUNK_SIZE <
        estimate_tokens_from_string (get_cleanup_prompt (List.replicate 24004 'a'))
      ∧ joinParagraphs (buildChunks (splitParagraphs (List.replicate 24004 'a')))
        ≠ List.replicate 24004 'a' := by
  constructor
  · exact cleanup_prompt_overflows _ (by rw [List.length_replicate])
  · have hnn : '\n' ∉ List.replicate 24004 'a' := by
      intro hm
      exact absurd (List.eq_of_mem_replicate hm) (by decide)
    have hsplit := splitParagraphs_of_no_newline _ hnn
    have hbig : MAX_CHUNK_SIZE <
        estimate_tokens_from_string (List.replicate 24004 'a') := by
      rw [estimate_tokens_from_string, List.length_replicate]
      decide
    rw [joinParagraphs_buildChunks_eq, hsplit]
    simp only [List.headI]
    rw [if_pos hbig]
    intro h
    have := congrArg List.length h
    rw [List.length_cons, List.length_cons, List.length_replicate] at this
    omega

/-- Claim C1 (amended): rejoining the chunks with the blank-line separator
reconstructs the document exactly whenever the first paragraph's estimate fits
the budget; when the first paragraph alone exceeds `MAX_CHUNK_SIZE`, the loop
emits one empty chunk first and the rejoined text is the document with one
leading blank-line separator.  In both cases no content is dropped,
duplicated or reordered. -/
theorem c1_chunk_roundtrip_amended (D : List Char) :
    joinParagraphs (buildChunks (splitParagraphs D))
      = if MAX_CHUNK_SIZE < estimate_tokens_from_string (splitParagraphs D).headI
        then '\n' :: '\n' :: D else D :=
  joinParagraphs_buildChunks_eq D

/-- Running the greedy loop on a single paragraph whose estimate exceeds the
budget: the overflow branch fires on the first iteration while
`current_chunk` is still empty, so the flushed chunk list is the empty chunk
followed by the paragraph itself. -/
theorem buildChunks_single_oversized (p : List Char)
    (h : MAX_CHUNK_SIZE < estimate_tokens_from_string p) :
    buildChunks [p] = [[], p] := by
  rw [buildChunks, buildChunksGo, if_pos (by simpa using h), buildChunksGo]
  simp [joinParagraphs]

/-- Claim C2, as stated, is false: a document that is one paragraph of 32000
characters (estimated at exactly 8000 tokens) takes the chunked path, and the
loop emits an empty chunk followed by the paragraph — two chunks, one of them
empty, not a single chunk. -/
theorem c2_empty_chunk_counterexample :
    MAX_CHUNK_SIZE <
        estimate_tokens_from_string (get_cleanup_prompt (List.replicate 32000 'a'))
      ∧ estimate_tokens_from_string (List.replicate 32000 'a') = 8000
      ∧ buildChunks (splitParagraphs (List.replicate 32000 'a'))
          = [[], List.replicate 32000 'a']
      ∧ (buildChunks (splitParagraphs (List.replicate 32000 'a'))).length ≠ 1 := by
  have hnn : '\n' ∉ List.replicate 32000 'a' := by
    intro hm
    exact absurd (List.eq_of_mem_replicate hm) (by decide)
  have hest : estimate_tokens_from_string (List.replicate 32000 'a') = 8000 := by
    rw [estimate_tokens_from_string, List.length_replicate]
  have hchunks : buildChunks (splitParagraphs (List.replicate 32000 'a'))
      = [[], List.replicate 32000 'a'] := by
    rw [splitParagraphs_of_no_newline _ hnn]
    exact buildChunks_single_oversized _ (by rw [hest]; decide)
  refine ⟨cleanup_prompt_overflows _ (by rw [List.length_replicate]; omega), hest,
    hchunks, ?_⟩
  rw [hchunks]
  decide

/-- Claim C2 (amended): the greedy loop closes the current chunk even when it
is empty.  For a document consisting of a single paragraph whose estimate
alone exceeds `MAX_CHUNK_SIZE`, the overflow branch fires on the first
iteration and the result is exactly two chunks: an empty chunk followed by
that paragraph as its own oversized chunk (the paragraph is not split
further). -/
theorem c2_oversized_first_paragraph_amended (p : List Char)
    (h1 : '\n' ∉ p) (h2 : MAX_CHUNK_SIZE < estimate_tokens_from_string p) :
    buildChunks (splitParagraphs p) = [[], p] := by
  rw [splitParagraphs_of_no_newline p h1]
  exact buildChunks_single_oversized p h2

/-- Witness for the amended claim C2 at the concrete 32000-character
paragraph (estimated at 8000 tokens). -/
theorem c2_oversized_first_paragraph_amended_witness :
    '\n' ∉ List.replicate 32000 'a'
      ∧ MAX_CHUNK_SIZE < estimate_tokens_from_string (List.replicate 32000 'a')
      ∧ buildChunks (splitParagraphs (List.replicate 32000 'a'))
          = [[], List.replicate 32000 'a'] := by
  have hnn : '\n' ∉ List.replicate 32000 'a' := by
    intro hm
    exact absurd (List.eq_of_mem_replicate hm) (by decide)
  have hbig : MAX_CHUNK_SIZE < estimate_tokens_from_string (List.replicate 32000 'a') := by
    rw [estimate_tokens_from_string, List.length_replicate]
    decide
  exact ⟨hnn, hbig, c2_oversized_first_paragraph_amended _ hnn hbig⟩

/-- Budget invariant of the greedy loop: the running token count is always the
sum of the per-paragraph estimates of the current chunk, and any emitted group
of two or more paragraphs has that sum within the budget (a group exceeding
the budget is necessarily a single oversized paragraph). -/
theorem chunkGroupsGo_sum_le (ps : List (List Char)) :
    ∀ (current : List (List Char)) (tok : Nat),
    tok = (current.map estimate_tokens_from_string).sum →
    (2 ≤ current.length → tok ≤ MAX_CHUNK_SIZE) →
    ∀ g ∈ chunkGroupsGo ps current tok, 2 ≤ g.length →
      (g.map estimate_tokens_from_string).sum ≤ MAX_CHUNK_SIZE := by
  induction ps with
  | nil =>
    intro current tok htok hcur g hg hlen
    rw [chunkGroupsGo] at hg
    by_cases h : current.isEmpty
    · rw [if_pos h] at hg
      simp at hg
    · rw [if_neg h, List.mem_singleton] at hg
      subst hg
      exact htok ▸ hcur hlen
  | cons p rest ih =>
    intro current tok htok hcur g hg hlen
    rw [chunkGroupsGo] at hg
    by_cases hc : tok + estimate_tokens_from_string p > MAX_CHUNK_SIZE
    · rw [if_pos hc] at hg
      rcases List.mem_cons.mp hg with hg | hg
      · subst hg
        exact htok ▸ hcur hlen
      · exact ih [p] _ (by simp) (by simp) g hg hlen
    · rw [if_neg hc] at hg
      push_neg at hc
      refine ih _ _ ?_ (fun _ => hc) g hg hlen
      rw [List.map_append, List.sum_append, htok]
      simp

/-- Claim C3 (amended): the chunks are the blank-line joins of consecutive
groups of paragraphs that exactly partition the paragraph list, and for every
group of two or more paragraphs the *sum of the per-paragraph estimates* is
within `MAX_CHUNK_SIZE`; any group whose estimate sum exceeds the budget is a
single oversized paragraph.  The bound is on per-paragraph estimate sums, not
on `estimateFromText` of the rejoined chunk text: the rejoined separators and
the per-paragraph floor remainders are uncounted, so the rejoined text of a
multi-paragraph chunk can estimate above `MAX_CHUNK_SIZE`. -/
theorem c3_chunk_size_bound_amended (D : List Char) :
    ∃ gs : List (List (List Char)),
      buildChunks (splitParagraphs D) = gs.map joinParagraphs
        ∧ gs.flatten = splitParagraphs D
        ∧ ∀ g ∈ gs, 2 ≤ g.length →
            (g.map estimate_tokens_from_string).sum ≤ MAX_CHUNK_SIZE := by
  refine ⟨chunkGroupsGo (splitParagraphs D) [] 0, ?_, ?_, ?_⟩
  · rw [buildChunks, buildChunksGo_eq_chunkGroupsGo, List.nil_append]
  · rw [chunkGroupsGo_flatten, List.nil_append]
  · exact chunkGroupsGo_sum_le _ [] 0 (by simp) (by simp)

/-- Witness instantiating the amended claim C3 at a concrete document. -/
theorem c3_chunk_size_bound_amended_witness :
    ∃ gs : List (List (List Char)),
      buildChunks (splitParagraphs ['a', 'b']) = gs.map joinParagraphs
        ∧ gs.flatten = splitParagraphs ['a', 'b']
        ∧ ∀ g ∈ gs, 2 ≤ g.length →
            (g.map estimate_tokens_from_string).sum ≤ MAX_CHUNK_SIZE :=
  c3_chunk_size_bound_amended ['a', 'b']

/-- Claim C3, as stated, is false: two 12003-character paragraphs each
estimate to 3000 tokens, so the greedy loop packs them into one chunk
(3000 + 3000 = 6000 ≤ 6000), yet the rejoined chunk text is 24008 characters
and estimates to 6002 > 6000 tokens — an over-budget chunk that consists of
two paragraphs, not an oversized single-paragraph chunk. -/
theorem c3_chunk_size_bound_counterexample :
    MAX_CHUNK_SIZE < estimate_tokens_from_string
        (get_cleanup_prompt
          (List.replicate 12003 'a' ++ '\n' :: '\n' :: List.replicate 12003 'a'))
      ∧ splitParagraphs
            (List.replicate 12003 'a' ++ '\n' :: '\n' :: List.replicate 12003 'a')
          = [List.replicate 12003 'a', List.replicate 12003 'a']
      ∧ buildChunks
            (splitParagraphs
              (List.replicate 12003 'a' ++ '\n' :: '\n' :: List.replicate 12003 'a'))
          = [List.replicate 12003 'a' ++ '\n' :: '\n' :: List.replicate 12003 'a']
      ∧ estimate_tokens_from_string
            (List.replicate 12003 'a' ++ '\n' :: '\n' :: List.replicate 12003 'a')
          = 6002 := by
  have hnn : '\n' ∉ List.replicate 12003 'a' := by
    intro hm
    exact absurd (List.eq_of_mem_replicate hm) (by decide)
  have hsplit : splitParagraphs
      (List.replicate 12003 'a' ++ '\n' :: '\n' :: List.replicate 12003 'a')
      = [List.replicate 12003 'a', List.replicate 12003 'a'] := by
    rw [splitParagraphs_append _ _ hnn, splitParagraphs_of_no_newline _ hnn]
  have hep : estimate_tokens_from_string (List.replicate 12003 'a') = 3000 := by
    rw [estimate_tokens_from_string, List.length_replicate]
  have hlen : (List.replicate 12003 'a'
      ++ '\n' :: '\n' :: List.replicate 12003 'a').length = 24008 := by
    rw [List.length_append, List.length_cons, List.length_cons,
      List.length_replicate]
  refine ⟨cleanup_prompt_overflows _ (by rw [hlen]; omega), hsplit, ?_, ?_⟩
  · rw [hsplit, buildChunks, buildChunksGo,
      if_neg (by rw [hep]; decide), buildChunksGo,
      if_neg (by rw [hep]; decide), buildChunksGo]
    rw [if_neg (by decide), List.nil_append, List.nil_append,
      List.singleton_append,
      joinParagraphs_cons_of_ne_nil _ _ (List.cons_ne_nil _ _)]
    rfl
  · rw [estimate_tokens_from_string, hlen]

/-- Embedding of `config.py` `IMAGE_TOKEN_MULTIPLIER = 1.75`.  The float 1.75
is exactly representable in binary floating point and all products taken with
it in the source (525 * 1.75 and 150 * 1.75) are exact, so modelling the
float arithmetic over `ℚ` is faithful. -/
def IMAGE_TOKEN_MULTIPLIER : ℚ := 7 / 4

/-- Embedding of the `config.py` dict `IMAGE_TOKEN_BASE` as a lookup
function: `some` on the two present keys, `none` otherwise. -/
def IMAGE_TOKEN_BASE (key : String) : Option Nat :=
  if key = "high" then some 525 else if key = "standard" then some 150 else none

namespace TokenEstimator

/-- Embedding of `TokenEstimator.estimate_from_string`:
`len(text) // CHARS_PER_TOKEN`. -/
def estimate_from_string (text : List Char) : Nat :=
  text.length / CHARS_PER_TOKEN

/-- Embedding of `TokenEstimator.estimate_image_tokens`:
`IMAGE_TOKEN_BASE.get(detail, IMAGE_TOKEN_BASE["standard"])` then
`int(base_tokens * IMAGE_TOKEN_MULTIPLIER)`.  Python `int()` truncates toward
zero; the operand is non-negative here, so truncation coincides with
`Int.floor`. -/
def estimate_image_tokens (detail : String) : ℤ :=
  Int.floor
    ((((IMAGE_TOKEN_BASE detail).getD ((IMAGE_TOKEN_BASE "standard").getD 0) : ℚ))
      * IMAGE_TOKEN_MULTIPLIER)

/-- Embedding of `TokenEstimator.calculate_token_difference`: guarded by
`if estimated <= 0: return 0.0, 0`, else the percentage difference (Python
float division, modelled exactly over `ℚ`) and the absolute difference. -/
def calculate_token_difference (estimated actual : Int) : ℚ × Int :=
  if estimated ≤ 0 then (0, 0)
  else (((actual : ℚ) - (estimated : ℚ)) / (estimated : ℚ) * 100, actual - estimated)

end TokenEstimator

theorem estimate_image_tokens_high : TokenEstimator.estimate_image_tokens "high" = 918 := by
  rw [TokenEstimator.estimate_image_tokens]
  have hb : (IMAGE_TOKEN_BASE "high").getD ((IMAGE_TOKEN_BASE "standard").getD 0) = 525 := by
    rw [IMAGE_TOKEN_BASE, if_pos rfl]
    rfl
  rw [hb, IMAGE_TOKEN_MULTIPLIER]
  rw [Int.floor_eq_iff]
  constructor <;> norm_num

theorem estimate_image_tokens_standard :
    TokenEstimator.estimate_image_tokens "standard" = 262 := by
  rw [TokenEstimator.estimate_image_tokens]
  have hb : (IMAGE_TOKEN_BASE "standard").getD ((IMAGE_TOKEN_BASE "standard").getD 0) = 150 := by
    rw [IMAGE_TOKEN_BASE, if_neg (by decide), if_pos rfl]
    rfl
  rw [hb, IMAGE_TOKEN_MULTIPLIER]
  rw [Int.floor_eq_iff]
  constructor <;> norm_num

/-- Claim C4, as stated, is false for the "high" detail level: the source
computes `int(525 * 1.75) = int(918.75) = 918` (truncation toward zero),
while `round(525 * 1.75) = 919`. -/
theorem c4_image_tokens_counterexample :
    TokenEstimator.estimate_image_tokens "high"
      ≠ round ((525 : ℚ) * IMAGE_TOKEN_MULTIPLIER) := by
  have hrd : round ((525 : ℚ) * IMAGE_TOKEN_MULTIPLIER) = 919 := by
    rw [IMAGE_TOKEN_MULTIPLIER, round_eq, Int.floor_eq_iff]
    constructor <;> norm_num
  rw [estimate_image_tokens_high, hrd]
  decide

/-- Claim C4 (amended): `estimate_image_tokens` applies `int()` truncation,
not rounding: it returns 918 (= trunc(525 * 1.75)) for "high" and 262
(= trunc(150 * 1.75)) for "standard", and any detail value other than "high"
or "standard" behaves exactly as "standard". -/
theorem c4_image_tokens_amended :
    TokenEstimator.estimate_image_tokens "high" = 918
      ∧ TokenEstimator.estimate_image_tokens "standard" = 262
      ∧ ∀ detail : String, detail ≠ "high" → detail ≠ "standard" →
          TokenEstimator.estimate_image_tokens detail
            = TokenEstimator.estimate_image_tokens "standard" := by
  refine ⟨estimate_image_tokens_high, estimate_image_tokens_standard, ?_⟩
  intro detail h1 h2
  rw [TokenEstimator.estimate_image_tokens, TokenEstimator.estimate_image_tokens,
    IMAGE_TOKEN_BASE]
  rw [if_neg h1, if_neg h2]
  rfl

/-- Witness for the amended claim C4 at the unknown detail value "low". -/
theorem c4_image_tokens_amended_witness :
    ("low" : String) ≠ "high" ∧ ("low" : String) ≠ "standard"
      ∧ TokenEstimator.estimate_image_tokens "low"
          = TokenEstimator.estimate_image_tokens "standard" :=
  ⟨by decide, by decide, c4_image_tokens_amended.2.2 "low" (by decide) (by decide)⟩

/-- Outcome of one `client.chat.completions.create` call: a successful
response carries its content and `usage.total_tokens` (the source substitutes
0 when `usage` is absent, so a plain `Nat` is kept here), and `failure`
carries the text of the raised exception. -/
inductive LLMResult where
  | success (content : List Char) (total_tokens : Nat)
  | failure (error : List Char)
deriving DecidableEq

/-- Return value of `text_tidy_up` — the `(content, estimated, actual)`
triple of the source — extended with the trace of request message bodies sent
to the completion service, which embeds the source's observable API calls. -/
structure TidyResult where
  content : List Char
  estimated_tokens : Nat
  actual_tokens : Nat
  requests : List (List Char)
deriving DecidableEq

/-- The `"\nThis is part " + str(i) + " of " + str(len(chunks)) + "."` text
appended to each chunk's cleanup prompt. -/
def partNote (i n : Nat) : List Char :=
  ("\nThis is part ").data ++ (Nat.repr i).data ++ (" of ").data
    ++ (Nat.repr n).data ++ (".").data

/-- The fallback string built by the single-shot `except` branch:
`f"Error in tidy up: {e}\n\nRaw document content:\n\n{full_document}"`. -/
def tidy_error_message (err full_document : List Char) : List Char :=
  ("Error in tidy up: ").data ++ err
    ++ ("\n\nRaw document content:\n\n").data ++ full_document

/-- Accumulated state of the per-chunk loop of `text_tidy_up` (`main.py`
lines 168-193): `processed_chunks`, `total_prompt_tokens`,
`total_actual_tokens`, plus the request trace. -/
structure ChunkOutcome where
  processed_chunks : List (List Char)
  total_prompt_tokens : Nat
  total_actual_tokens : Nat
  requests : List (List Char)
deriving DecidableEq

/-- Embedding of the per-chunk request loop: chunk `i` (1-based, as in
`enumerate(chunks, 1)`) is request number `i` to the oracle.  On success the
response content is appended and both token totals grow; on an exception the
original chunk text is appended and neither total grows (the
`total_prompt_tokens += ...` line sits after the API call, so it is skipped
when the call raises). -/
def process_chunks (oracle : Nat → LLMResult) (n : Nat) :
    Nat → List (List Char) → ChunkOutcome
  | _, [] => ⟨[], 0, 0, []⟩
  | i, chunk :: rest =>
    let r := process_chunks oracle n (i + 1) rest
    match oracle i with
    | .success content total_tokens =>
      ⟨content :: r.processed_chunks,
        estimate_tokens_from_string chunk + r.total_prompt_tokens,
        total_tokens + r.total_actual_tokens,
        (get_cleanup_prompt chunk ++ partNote i n) :: r.requests⟩
    | .failure _ =>
      ⟨chunk :: r.processed_chunks, r.total_prompt_tokens, r.total_actual_tokens,
        (get_cleanup_prompt chunk ++ partNote i n) :: r.requests⟩

/-- Embedding of `text_tidy_up` (`main.py` lines 108-198).  The single
request of the small-document path is request number 1, as is the first chunk
request of the chunked path. -/
def text_tidy_up (oracle : Nat → LLMResult) (full_document : List Char) : TidyResult :=
  if estimate_tokens_from_string (get_cleanup_prompt full_document) ≤ MAX_CHUNK_SIZE then
    match oracle 1 with
    | .success content total_tokens =>
      ⟨content, estimate_tokens_from_string (get_cleanup_prompt full_document),
        total_tokens, [get_cleanup_prompt full_document]⟩
    | .failure err =>
      ⟨tidy_error_message err full_document, 0, 0, [get_cleanup_prompt full_document]⟩
  else
    let chunks := buildChunks (splitParagraphs full_document)
    let r := process_chunks oracle chunks.length 1 chunks
    ⟨joinParagraphs r.processed_chunks, r.total_prompt_tokens,
      r.total_actual_tokens, r.requests⟩

/-- Specification-side description (spec section 4.2, Chunked): the output
sequence keeps, position by position, the cleaned content of a successful
chunk request and the original chunk text of a failed one. -/
def fallbackContents (oracle : Nat → LLMResult) : Nat → List (List Char) → List (List Char)
  | _, [] => []
  | i, chunk :: rest =>
    (match oracle i with
      | .success content _ => content
      | .failure _ => chunk) :: fallbackContents oracle (i + 1) rest

/-- Specification-side description: sum of `usage.total_tokens` over exactly
the successful chunk requests (failed chunks contribute 0). -/
def actualTokensOfSuccesses (oracle : Nat → LLMResult) : Nat → List (List Char) → Nat
  | _, [] => 0
  | i, _ :: rest =>
    (match oracle i with
      | .success _ total_tokens => total_tokens
      | .failure _ => 0) + actualTokensOfSuccesses oracle (i + 1) rest

/-- Specification-side description: sum of `estimateFromText(chunk)` over
exactly the successful chunk requests (failed chunks contribute 0; the
cleanup-prompt wrapper text of the request is not counted). -/
def estimatedTokensOfSuccesses (oracle : Nat → LLMResult) : Nat → List (List Char) → Nat
  | _, [] => 0
  | i, chunk :: rest =>
    (match oracle i with
      | .success _ _ => estimate_tokens_from_string chunk
      | .failure _ => 0) + estimatedTokensOfSuccesses oracle (i + 1) rest

/-- The request bodies the chunked path sends, in order. -/
def requestMessages (n : Nat) : Nat → List (List Char) → List (List Char)
  | _, [] => []
  | i, chunk :: rest =>
    (get_cleanup_prompt chunk ++ partNote i n) :: requestMessages n (i + 1) rest

theorem process_chunks_processed (oracle : Nat → LLMResult) (n : Nat)
    (cs : List (List Char)) : ∀ i,
    (process_chunks oracle n i cs).processed_chunks = fallbackContents oracle i cs := by
  induction cs with
  | nil => intro i; rfl
  | cons c rest ih =>
    intro i
    rw [process_chunks, fallbackContents]
    cases ho : oracle i with
    | success content t => simp [ho, ih]
    | failure e => simp [ho, ih]

theorem process_chunks_actual (oracle : Nat → LLMResult) (n : Nat)
    (cs : List (List Char)) : ∀ i,
    (process_chunks oracle n i cs).total_actual_tokens
      = actualTokensOfSuccesses oracle i cs := by
  induction cs with
  | nil => intro i; rfl
  | cons c rest ih =>
    intro i
    rw [process_chunks, actualTokensOfSuccesses]
    cases ho : oracle i with
    | success content t => simp [ho, ih]
    | failure e => simp [ho, ih]

theorem process_chunks_estimated (oracle : Nat → LLMResult) (n : Nat)
    (cs : List (List Char)) : ∀ i,
    (process_chunks oracle n i cs).total_prompt_tokens
      = estimatedTokensOfSuccesses oracle i cs := by
  induction cs with
  | nil => intro i; rfl
  | cons c rest ih =>
    intro i
    rw [process_chunks, estimatedTokensOfSuccesses]
    cases ho : oracle i with
    | success content t => simp [ho, ih]
    | failure e => simp [ho, ih]

theorem process_chunks_requests (oracle : Nat → LLMResult) (n : Nat)
    (cs : List (List Char)) : ∀ i,
    (process_chunks oracle n i cs).requests = requestMessages n i cs := by
  induction cs with
  | nil => intro i; rfl
  | cons c rest ih =>
    intro i
    rw [process_chunks, requestMessages]
    cases ho : oracle i with
    | success content t => simp [ho, ih]
    | failure e => simp [ho, ih]

theorem requestMessages_length (n : Nat) (cs : List (List Char)) : ∀ i,
    (requestMessages n i cs).length = cs.length := by
  induction cs with
  | nil => intro i; rfl
  | cons c rest ih =>
    intro i
    rw [requestMessages, List.length_cons, List.length_cons, ih]

theorem partNote_ne_nil (i n : Nat) : partNote i n ≠ [] := by
  rw [partNote]
  intro h
  have hlen := congrArg List.length h
  rw [List.length_append] at hlen
  have hdot : (".").data.length = 1 := rfl
  have hnil : ([] : List Char).length = 0 := rfl
  omega

/-- Every chunked request body ends with the full stop of its
"This is part i of N." suffix. -/
theorem chunk_request_getLast (chunk : List Char) (i n : Nat) :
    (get_cleanup_prompt chunk ++ partNote i n).getLast? = some '.' := by
  rw [List.getLast?_append_of_ne_nil _ (partNote_ne_nil i n), partNote,
    List.getLast?_append_of_ne_nil _ (by decide)]
  rfl

/-- The single-shot request body ends with the f-string's trailing newline. -/
theorem get_cleanup_prompt_getLast (D : List Char) :
    (get_cleanup_prompt D).getLast? = some '\n' := by
  rw [get_cleanup_prompt, List.getLast?_append_of_ne_nil _ (by decide)]
  rfl

theorem text_tidy_up_requests_chunked (oracle : Nat → LLMResult) (D : List Char)
    (h : ¬ estimate_tokens_from_string (get_cleanup_prompt D) ≤ MAX_CHUNK_SIZE) :
    (text_tidy_up oracle D).requests
      = requestMessages (buildChunks (splitParagraphs D)).length 1
          (buildChunks (splitParagraphs D)) := by
  rw [text_tidy_up, if_neg h]
  exact process_chunks_requests oracle _ _ 1

theorem text_tidy_up_content_chunked (oracle : Nat → LLMResult) (D : List Char)
    (h : ¬ estimate_tokens_from_string (get_cleanup_prompt D) ≤ MAX_CHUNK_SIZE) :
    (text_tidy_up oracle D).content
      = joinParagraphs (fallbackContents oracle 1 (buildChunks (splitParagraphs D))) := by
  rw [text_tidy_up, if_neg h]
  exact congrArg joinParagraphs (process_chunks_processed oracle _ _ 1)

theorem text_tidy_up_actual_chunked (oracle : Nat → LLMResult) (D : List Char)
    (h : ¬ estimate_tokens_from_string (get_cleanup_prompt D) ≤ MAX_CHUNK_SIZE) :
    (text_tidy_up oracle D).actual_tokens
      = actualTokensOfSuccesses oracle 1 (buildChunks (splitParagraphs D)) := by
  rw [text_tidy_up, if_neg h]
  exact process_chunks_actual oracle _ _ 1

theorem text_tidy_up_estimated_chunked (oracle : Nat → LLMResult) (D : List Char)
    (h : ¬ estimate_tokens_from_string (get_cleanup_prompt D) ≤ MAX_CHUNK_SIZE) :
    (text_tidy_up oracle D).estimated_tokens
      = estimatedTokensOfSuccesses oracle 1 (buildChunks (splitParagraphs D)) := by
  rw [text_tidy_up, if_neg h]
  exact process_chunks_estimated oracle _ _ 1

/-- Claim C5: the path decision boundary is inclusive — `text_tidy_up` sends
exactly the one single-shot request (body = the cleanup prompt of the whole
document) if and only if the cleanup-prompt estimate is at most
`MAX_CHUNK_SIZE`; a document estimating to exactly 6000 is processed
single-shot, and any strictly larger estimate takes the chunked path, whose
request bodies all carry a "This is part i of N." suffix and therefore never
coincide with the single-shot request list. -/
theorem c5_single_shot_boundary (oracle : Nat → LLMResult) (D : List Char) :
    (text_tidy_up oracle D).requests = [get_cleanup_prompt D]
      ↔ estimate_tokens_from_string (get_cleanup_prompt D) ≤ MAX_CHUNK_SIZE := by
  by_cases h : estimate_tokens_from_string (get_cleanup_prompt D) ≤ MAX_CHUNK_SIZE
  · refine ⟨fun _ => h, fun _ => ?_⟩
    rw [text_tidy_up, if_pos h]
    cases ho : oracle 1 with
    | success content t => rfl
    | failure e => rfl
  · refine ⟨fun hreq => ?_, fun hle => absurd hle h⟩
    exfalso
    rw [text_tidy_up_requests_chunked oracle D h] at hreq
    cases hc : buildChunks (splitParagraphs D) with
    | nil =>
      rw [hc] at hreq
      exact List.cons_ne_nil _ _ hreq.symm
    | cons c cs =>
      cases cs with
      | nil =>
        rw [hc, requestMessages, requestMessages] at hreq
        have hmsg : get_cleanup_prompt c ++ partNote 1 [c].length = get_cleanup_prompt D := by
          simpa using hreq
        have h1 := chunk_request_getLast c 1 [c].length
        rw [hmsg, get_cleanup_prompt_getLast] at h1
        simp at h1
      | cons c2 cs2 =>
        have hlen := congrArg List.length hreq
        rw [requestMessages_length] at hlen
        rw [hc] at hlen
        simp at hlen

/-- Claim C7: on the chunked path, for every pattern of per-chunk request
outcomes, the output is the in-order blank-line join of, per position, the
cleaned content of a successful chunk request or the original unprocessed
chunk text of a failed one (processing continues past failures), and the
actual-token total sums `usage.total_tokens` over exactly the successful
chunk requests (failed chunks contribute 0). -/
theorem c7_chunked_failure_policy (oracle : Nat → LLMResult) (D : List Char)
    (h : MAX_CHUNK_SIZE < estimate_tokens_from_string (get_cleanup_prompt D)) :
    (text_tidy_up oracle D).content
        = joinParagraphs (fallbackContents oracle 1 (buildChunks (splitParagraphs D)))
      ∧ (text_tidy_up oracle D).actual_tokens
        = actualTokensOfSuccesses oracle 1 (buildChunks (splitParagraphs D)) :=
  ⟨text_tidy_up_content_chunked oracle D (not_le.mpr h),
    text_tidy_up_actual_chunked oracle D (not_le.mpr h)⟩

/-- The two-chunk document of Scenario D: two 14000-character paragraphs,
estimated at 3500 tokens each, split into two single-paragraph chunks. -/
theorem buildChunks_two_halves :
    buildChunks (splitParagraphs
        (List.replicate 14000 'a' ++ '\n' :: '\n' :: List.replicate 14000 'a'))
      = [List.replicate 14000 'a', List.replicate 14000 'a'] := by
  have hnn : '\n' ∉ List.replicate 14000 'a' := by
    intro hm
    exact absurd (List.eq_of_mem_replicate hm) (by decide)
  have hep : estimate_tokens_from_string (List.replicate 14000 'a') = 3500 := by
    rw [estimate_tokens_from_string, List.length_replicate]
  rw [splitParagraphs_append _ _ hnn, splitParagraphs_of_no_newline _ hnn,
    buildChunks, buildChunksGo, if_neg (by rw [hep]; decide),
    buildChunksGo, if_pos (by rw [hep]; decide),
    buildChunksGo, if_neg (by decide)]
  rfl

/-- Witness for claim C7, instantiating Scenario D: two chunks, the request
for chunk 2 of 2 fails, so the output is chunk 1's cleaned text followed by
chunk 2's original text joined by the blank-line separator, and the actual
token total is exactly chunk 1's usage. -/
theorem c7_chunked_failure_policy_witness :
    MAX_CHUNK_SIZE < estimate_tokens_from_string (get_cleanup_prompt
        (List.replicate 14000 'a' ++ '\n' :: '\n' :: List.replicate 14000 'a'))
      ∧ (text_tidy_up
            (fun i => if i = 2 then .failure ("boom").data else .success ("ok").data 7)
            (List.replicate 14000 'a' ++ '\n' :: '\n' :: List.replicate 14000 'a')).content
          = ("ok").data ++ '\n' :: '\n' :: List.replicate 14000 'a'
      ∧ (text_tidy_up
            (fun i => if i = 2 then .failure ("boom").data else .success ("ok").data 7)
            (List.replicate 14000 'a' ++ '\n' :: '\n' :: List.replicate 14000 'a')).actual_tokens
          = 7 := by
  have hbig : MAX_CHUNK_SIZE < estimate_tokens_from_string (get_cleanup_prompt
      (List.replicate 14000 'a' ++ '\n' :: '\n' :: List.replicate 14000 'a')) := by
    refine cleanup_prompt_overflows _ ?_
    rw [List.length_append, List.length_cons, List.length_cons, List.length_replicate]
    omega
  have hmain := c7_chunked_failure_policy
    (fun i => if i = 2 then .failure ("boom").data else .success ("ok").data 7)
    (List.replicate 14000 'a' ++ '\n' :: '\n' :: List.replicate 14000 'a') hbig
  rw [buildChunks_two_halves] at hmain
  refine ⟨hbig, ?_, ?_⟩
  · rw [hmain.1, fallbackContents, fallbackContents, fallbackContents]
    norm_num
    rw [joinParagraphs_cons_of_ne_nil _ _ (List.cons_ne_nil _ _)]
    rfl
  · rw [hmain.2, actualTokensOfSuccesses, actualTokensOfSuccesses,
      actualTokensOfSuccesses]
    norm_num

/-- Claim C8: on the single-shot path, if the cleanup request fails the
pipeline returns (instead of raising) the synthesized error message, which
embeds the original raw document verbatim as its suffix, with zero token
counters.  In the embedding every request outcome — including any exception,
carried as `LLMResult.failure` — yields a defined `TidyResult`, mirroring the
source's catch-all `except` blocks: no exception escapes `text_tidy_up`. -/
theorem c8_single_shot_fallback (oracle : Nat → LLMResult) (D err : List Char)
    (h1 : estimate_tokens_from_string (get_cleanup_prompt D) ≤ MAX_CHUNK_SIZE)
    (h2 : oracle 1 = .failure err) :
    (text_tidy_up oracle D).content = tidy_error_message err D
      ∧ (text_tidy_up oracle D).estimated_tokens = 0
      ∧ (text_tidy_up oracle D).actual_tokens = 0
      ∧ ∃ before, (text_tidy_up oracle D).content = before ++ D := by
  rw [text_tidy_up, if_pos h1, h2]
  exact ⟨rfl, rfl, rfl,
    ⟨("Error in tidy up: ").data ++ err ++ ("\n\nRaw document content:\n\n").data, rfl⟩⟩

/-- Witness for claim C8: a two-character document with a failing request. -/
theorem c8_single_shot_fallback_witness :
    estimate_tokens_from_string (get_cleanup_prompt (("hi").data)) ≤ MAX_CHUNK_SIZE
      ∧ (text_tidy_up (fun _ => .failure (("x").data)) (("hi").data)).content
          = tidy_error_message (("x").data) (("hi").data)
      ∧ (text_tidy_up (fun _ => .failure (("x").data)) (("hi").data)).actual_tokens = 0 := by
  have h1 : estimate_tokens_from_string (get_cleanup_prompt (("hi").data))
      ≤ MAX_CHUNK_SIZE := by decide
  have hm := c8_single_shot_fallback (fun _ => .failure (("x").data)) (("hi").data)
    (("x").data) h1 rfl
  exact ⟨h1, hm.1, hm.2.2.1⟩

/-- Claim C10 (implicit): the estimated-token total returned by `text_tidy_up`
counts only successful requests — a failed single-shot request returns 0 (not
the computed prompt estimate), and on the chunked path the returned estimate
sums `estimateFromText(chunk)` over exactly the chunks whose request
succeeded, without the cleanup-prompt wrapper text. -/
theorem c10_estimated_counts_successes (oracle : Nat → LLMResult) (D err : List Char) :
    (estimate_tokens_from_string (get_cleanup_prompt D) ≤ MAX_CHUNK_SIZE →
        oracle 1 = .failure err → (text_tidy_up oracle D).estimated_tokens = 0)
      ∧ (MAX_CHUNK_SIZE < estimate_tokens_from_string (get_cleanup_prompt D) →
        (text_tidy_up oracle D).estimated_tokens
          = estimatedTokensOfSuccesses oracle 1 (buildChunks (splitParagraphs D))) := by
  constructor
  · intro h1 h2
    rw [text_tidy_up, if_pos h1, h2]
  · intro h
    exact text_tidy_up_estimated_chunked oracle D (not_le.mpr h)

/-- Witness for claim C10: a failing single-shot request reports an estimated
total of 0. -/
theorem c10_estimated_counts_successes_witness :
    (text_tidy_up (fun _ => .failure (("y").data)) (("hi").data)).estimated_tokens = 0 :=
  (c10_estimated_counts_successes (fun _ => .failure (("y").data)) (("hi").data)
    (("y").data)).1 (by decide) rfl

/-- Claim C6: both token estimators are the floor of length divided by 4 —
`main.py`'s `estimate_tokens_from_string` hard-codes the 4, and
`TokenEstimator.estimate_from_string` reads `CHARS_PER_TOKEN = 4` from the
configuration; both are total pure functions into the non-negative
integers and they agree on every string. -/
theorem c6_estimate_from_text (s : List Char) :
    estimate_tokens_from_string s = s.length / 4
      ∧ TokenEstimator.estimate_from_string s = s.length / CHARS_PER_TOKEN
      ∧ TokenEstimator.estimate_from_string s = estimate_tokens_from_string s :=
  ⟨rfl, rfl, rfl⟩

/-- Claim C9: `calculate_token_difference` is total; a non-positive estimate
(in particular `estimated = 0`, `actual = 50`) returns `(0.0, 0)` instead of
dividing by zero, and every positive estimate returns the percentage and
absolute differences. -/
theorem c9_token_difference_guard :
    TokenEstimator.calculate_token_difference 0 50 = (0, 0)
      ∧ ∀ estimated actual : Int, 0 < estimated →
          TokenEstimator.calculate_token_difference estimated actual
            = (((actual : ℚ) - (estimated : ℚ)) / (estimated : ℚ) * 100,
                actual - estimated) := by
  constructor
  · rfl
  · intro estimated actual h
    rw [TokenEstimator.calculate_token_difference, if_neg (by omega)]

/-- Witness for claim C9 at `estimated = 5`, `actual = 10`. -/
theorem c9_token_difference_guard_witness :
    TokenEstimator.calculate_token_difference 5 10 = (100, 5) := by
  rw [c9_token_difference_guard.2 5 10 (by decide)]
  norm_num
